import Mathlib

/-!
# Verification of the TonpaiICE order bot (`src/server.js`)

Shallow embedding of the order-taking core of `server.js`:

* the utterance parser `parseOrder`'s regular expression
  `/(?:([฀-๿]+)\s+)?สั่ง\s*([฀-๿]+)\s*(\d+)\s*([฀-๿]+)?\s*(?:ส่งโดย\s*([฀-๿]+))?/i`
  as an explicit backtracking matcher over `List Char` with JavaScript's
  leftmost-match, greedy-quantifier semantics (the `i` flag is irrelevant:
  the literals are Thai, which has no case);
* JavaScript `parseInt` and number-to-string coercion (`NaN` is modelled by
  `none : Option Int`; integer values are modelled exactly, ignoring the
  float precision loss above 2^53 which no claim exercises);
* the spreadsheet-backed ledger (`getStock`, `updateStock`, `addOrder`) as
  explicit state passing over lists of string-cell rows, with a fault
  environment injecting an exception at each of the five external API call
  sites;
* the `/webhook` text-event boundary (`handleTextEvent`) that catches
  exceptions escaping `parseOrder` and replies with the generic error text.
-/

namespace TonpaiICE

/-! ## Character classes of the regex -/

/-- The Thai-script class `[฀-๿]` of the regex. -/
def isThai (c : Char) : Bool :=
  decide (0x0E00 ≤ c.toNat) && decide (c.toNat ≤ 0x0E7F)

/-- The `\d` class of a non-`u` JavaScript regex: exactly ASCII `0`-`9`. -/
def isDigit10 (c : Char) : Bool :=
  decide (48 ≤ c.toNat) && decide (c.toNat ≤ 57)

/-- JavaScript `\s` (also the `parseInt` whitespace-trim set): tab, LF, VT,
FF, CR, space, NBSP, Ogham space, the U+2000-200A range, line/paragraph
separator, narrow NBSP, math space, ideographic space, BOM. -/
def isJsSpace (c : Char) : Bool :=
  decide (9 ≤ c.toNat) && decide (c.toNat ≤ 13)
  || c.toNat == 32 || c.toNat == 0xA0 || c.toNat == 0x1680
  || decide (0x2000 ≤ c.toNat) && decide (c.toNat ≤ 0x200A)
  || c.toNat == 0x2028 || c.toNat == 0x2029 || c.toNat == 0x202F
  || c.toNat == 0x205F || c.toNat == 0x3000 || c.toNat == 0xFEFF

/-! ## Literal matching -/

/-- Match a literal token at the head of the input: `litHere tok cs` returns
the remaining input when `tok` is a prefix of `cs`. -/
def litHere : List Char → List Char → Option (List Char)
  | [], cs => some cs
  | _ :: _, [] => none
  | t :: ts, c :: cs => if c = t then litHere ts cs else none

/-- `tok` occurs (as a contiguous run) somewhere in `cs`. -/
def containsTok (tok : List Char) : List Char → Bool
  | [] => (litHere tok []).isSome
  | c :: cs => (litHere tok (c :: cs)).isSome || containsTok tok cs

/-- The fixed order keyword `สั่ง` of the regex. -/
def kwOrder : List Char := "สั่ง".data

/-- The fixed delivery keyword `ส่งโดย` of the regex. -/
def kwDeliver : List Char := "ส่งโดย".data

/-! ## Backtracking matcher

Continuation-passing combinators reproducing the JavaScript regex engine's
backtracking order: greedy quantifiers try the longest repetition first and
give back characters on failure of the continuation; `?` tries the present
branch first. -/

/-- Greedy `p*`: consume as many `p`-characters as possible, backtracking to
shorter runs when the continuation `k` (given the captured run and the rest)
fails. `acc` holds the reversed run consumed so far. -/
def starGreedy {α : Type} (p : Char → Bool) (acc : List Char) :
    List Char → (List Char → List Char → Option α) → Option α
  | [], k => k acc.reverse []
  | c :: cs, k =>
    if p c then
      match starGreedy p (c :: acc) cs k with
      | some r => some r
      | none => k acc.reverse (c :: cs)
    else k acc.reverse (c :: cs)

/-- Greedy `p+`: at least one `p`-character, then `starGreedy`. -/
def plusGreedy {α : Type} (p : Char → Bool) (cs : List Char)
    (k : List Char → List Char → Option α) : Option α :=
  match cs with
  | [] => none
  | c :: rest => if p c then starGreedy p [c] rest k else none

/-- Literal token combinator. -/
def litTok {α : Type} (tok cs : List Char) (k : List Char → Option α) :
    Option α :=
  match litHere tok cs with
  | some rest => k rest
  | none => none

/-- Greedy optional capturing group `(p+)?`: try the group first, absent
otherwise. -/
def optPlus {α : Type} (p : Char → Bool) (cs : List Char)
    (k : Option (List Char) → List Char → Option α) : Option α :=
  match plusGreedy p cs (fun g rest => k (some g) rest) with
  | some r => some r
  | none => k none cs

/-- The trailing optional group `(?:ส่งโดย\s*([฀-๿]+))?`. -/
def optDeliver {α : Type} (cs : List Char)
    (k : Option (List Char) → List Char → Option α) : Option α :=
  match litTok kwDeliver cs (fun cs1 =>
      starGreedy isJsSpace [] cs1 (fun _ cs2 =>
      plusGreedy isThai cs2 (fun g rest => k (some g) rest))) with
  | some r => some r
  | none => k none cs

/-- Raw capture groups of a successful regex match: groups 1-5 of the
pattern; groups 2 (item) and 3 (quantity digits) always participate. -/
structure RawMatch where
  g1 : Option (List Char)
  g2 : List Char
  g3 : List Char
  g4 : Option (List Char)
  g5 : Option (List Char)
  deriving DecidableEq

/-- The part of the pattern after the optional leading customer group:
`สั่ง\s*([฀-๿]+)\s*(\d+)\s*([฀-๿]+)?\s*(?:ส่งโดย\s*([฀-๿]+))?`. -/
def matchAfterCustomer (g1 : Option (List Char)) (cs : List Char) :
    Option RawMatch :=
  litTok kwOrder cs fun cs2 =>
  starGreedy isJsSpace [] cs2 fun _ cs3 =>
  plusGreedy isThai cs3 fun g2 cs4 =>
  starGreedy isJsSpace [] cs4 fun _ cs5 =>
  plusGreedy isDigit10 cs5 fun g3 cs6 =>
  starGreedy isJsSpace [] cs6 fun _ cs7 =>
  optPlus isThai cs7 fun g4 cs8 =>
  starGreedy isJsSpace [] cs8 fun _ cs9 =>
  optDeliver cs9 fun g5 _ =>
  some ⟨g1, g2, g3, g4, g5⟩

/-- Attempt the whole pattern at the current position: the optional leading
group `(?:([฀-๿]+)\s+)?` is tried present-first (greedy `?`). -/
def matchAt (cs : List Char) : Option RawMatch :=
  match plusGreedy isThai cs (fun g1 cs1 =>
      plusGreedy isJsSpace cs1 (fun _ cs2 =>
      matchAfterCustomer (some g1) cs2)) with
  | some r => some r
  | none => matchAfterCustomer none cs

/-- `String.prototype.match` without the `g` flag: try the pattern at each
successive start position, returning the leftmost match. -/
def findMatchFrom : List Char → Option RawMatch
  | [] => matchAt []
  | c :: cs =>
    match matchAt (c :: cs) with
    | some r => some r
    | none => findMatchFrom cs

/-! ## JavaScript number model

JavaScript numbers reaching this code are either integers or `NaN`
(`parseInt` of a non-numeric cell); we model them as `Option Int` with
`none` for `NaN`. -/

/-- JS `a < b`: `false` whenever either side is `NaN`. -/
def jsLt (a b : Option Int) : Bool :=
  match a, b with
  | some x, some y => decide (x < y)
  | _, _ => false

/-- JS `a * b`: `NaN` propagates. -/
def jsMul (a b : Option Int) : Option Int :=
  match a, b with
  | some x, some y => some (x * y)
  | _, _ => none

/-- JS `a - b`: `NaN` propagates. -/
def jsSub (a b : Option Int) : Option Int :=
  match a, b with
  | some x, some y => some (x - y)
  | _, _ => none

/-- Decimal digit character for `d ≤ 9` (as in number-to-string). -/
def decDigit (d : Nat) : Char :=
  if d = 0 then '0' else if d = 1 then '1' else if d = 2 then '2'
  else if d = 3 then '3' else if d = 4 then '4' else if d = 5 then '5'
  else if d = 6 then '6' else if d = 7 then '7' else if d = 8 then '8'
  else '9'

/-- Decimal digits of `n`, least significant first; `fuel ≥ n` suffices. -/
def natDigitsRevAux (fuel : Nat) (n : Nat) : List Char :=
  match fuel, n with
  | 0, _ => []
  | _ + 1, 0 => []
  | f + 1, m + 1 => decDigit ((m + 1) % 10) :: natDigitsRevAux f ((m + 1) / 10)

/-- JS `String(n)` for a natural number. -/
def natToDec (n : Nat) : String :=
  if n = 0 then "0" else (natDigitsRevAux n n).reverse.asString

/-- JS `String(n)` for an integer. -/
def intToDec (n : Int) : String :=
  if n < 0 then "-" ++ natToDec n.natAbs else natToDec n.toNat

/-- JS string coercion of a number: decimal rendering, `"NaN"` for `NaN`.
Used both for template-literal interpolation and for the string a numeric
spreadsheet cell renders back to. -/
def numToCell : Option Int → String
  | none => "NaN"
  | some n => intToDec n

/-- Value of a most-significant-first decimal digit run. -/
def digitsVal (cs : List Char) : Nat :=
  cs.foldl (fun a c => 10 * a + (c.toNat - 48)) 0

/-- Value of a least-significant-first decimal digit run. -/
def lsbVal : List Char → Nat
  | [] => 0
  | c :: cs => (c.toNat - 48) + 10 * lsbVal cs

/-- Value of a most-significant-first hexadecimal digit run. -/
def hexVal (cs : List Char) : Nat :=
  cs.foldl (fun a c =>
    16 * a +
      (if 48 ≤ c.toNat && c.toNat ≤ 57 then c.toNat - 48
       else if 97 ≤ c.toNat && c.toNat ≤ 102 then c.toNat - 87
       else c.toNat - 55)) 0

/-- Hex digit class `[0-9a-fA-F]`. -/
def isHexDigit16 (c : Char) : Bool :=
  decide (48 ≤ c.toNat) && decide (c.toNat ≤ 57)
  || decide (97 ≤ c.toNat) && decide (c.toNat ≤ 102)
  || decide (65 ≤ c.toNat) && decide (c.toNat ≤ 70)

/-- Maximal decimal digit run at the head; `NaN` when empty. -/
def parseDec (cs : List Char) : Option Nat :=
  let ds := cs.takeWhile isDigit10
  if ds.isEmpty then none else some (digitsVal ds)

/-- Maximal hex digit run at the head; `NaN` when empty. -/
def parseHexRun (cs : List Char) : Option Nat :=
  let ds := cs.takeWhile isHexDigit16
  if ds.isEmpty then none else some (hexVal ds)

/-- `parseInt` after whitespace and sign: a `0x`/`0X` prefix selects radix
16, otherwise radix 10. -/
def parseUnsigned (cs : List Char) : Option Nat :=
  match cs with
  | c0 :: c1 :: rest =>
    if c0 = '0' ∧ (c1 = 'x' ∨ c1 = 'X') then parseHexRun rest else parseDec cs
  | _ => parseDec cs

/-- `parseInt` after the whitespace trim: optional sign, then
`parseUnsigned`. -/
def jsParseIntAux : List Char → Option Int
  | [] => none
  | c :: rest =>
    if c = '-' then (parseUnsigned rest).map (fun (n : Nat) => -(n : Int))
    else if c = '+' then (parseUnsigned rest).map (fun (n : Nat) => (n : Int))
    else (parseUnsigned (c :: rest)).map (fun (n : Nat) => (n : Int))

/-- JS `parseInt(s)` (radix argument omitted): trim leading whitespace,
optional sign, auto radix; `none` models the `NaN` result. -/
def jsParseInt (s : String) : Option Int :=
  jsParseIntAux (s.data.dropWhile isJsSpace)

/-- JS `g || dflt` applied to an optional regex capture: an absent group
(`undefined`) and the empty string are both falsy. -/
def jsOrElse (g : Option (List Char)) (dflt : String) : String :=
  match g with
  | none => dflt
  | some cs => if cs.asString = "" then dflt else cs.asString

/-! ## Spreadsheet ledger model

The two named ranges of the sheet, as lists of rows of string cells
(`values.get` returns strings; a short row models trailing `undefined`
cells). -/

/-- State of the spreadsheet: the `สต็อก!A:E` rows and the
`คำสั่งซื้อ!A:K` rows. -/
structure SheetsState where
  stockRows : List (List String)
  orderRows : List (List String)
  deriving DecidableEq

/-- JS `row[i] === v` where `row[i]` may be `undefined`. -/
def cellEq (row : List String) (i : Nat) (v : String) : Bool :=
  match row.get? i with
  | some s => s = v
  | none => false

/-- The scan predicate `row[0] === item && row[1] === unit` shared by
`getStock` and `updateStock`. -/
def rowMatches (item unit : String) (row : List String) : Bool :=
  cellEq row 0 item && cellEq row 1 unit

/-- JS `parseInt(row[i] || 0)`: a missing (`undefined`) or empty cell is
falsy and yields `0`; any other cell string goes through `parseInt`. -/
def cellIntOrZero (row : List String) (i : Nat) : Option Int :=
  match row.get? i with
  | none => some 0
  | some s => if s = "" then some 0 else jsParseInt s

/-- The pair `{stock, price}` returned by `getStock`. -/
structure StockData where
  stock : Option Int
  price : Option Int
  deriving DecidableEq

/-- The scan loop of `getStock`: first row with `row[0] === item &&
row[1] === unit` yields `{stock: parseInt(row[3] || 0), price:
parseInt(row[4] || 0)}`; no match yields `{stock: 0, price: 0}`. -/
def getStockPure (rows : List (List String)) (item unit : String) :
    StockData :=
  match rows with
  | [] => ⟨some 0, some 0⟩
  | row :: rest =>
    if rowMatches item unit row then ⟨cellIntOrZero row 3, cellIntOrZero row 4⟩
    else getStockPure rest item unit

/-- Overwrite cell `i` of a row, padding with empty cells as the sheet does
when writing past the end of a short row. -/
def setIdx (row : List String) (i : Nat) (v : String) : List String :=
  match i, row with
  | 0, [] => [v]
  | 0, _ :: rest => v :: rest
  | n + 1, [] => "" :: setIdx [] n v
  | n + 1, c :: rest => c :: setIdx rest n v

/-- The scan-and-update loop of `updateStock`: the first matching row `i`
gets its column-D cell (index 3) overwritten with the written number's
rendering; no matching row is a silent no-op. -/
def updateStockPure (rows : List (List String)) (item unit : String)
    (newStock : Option Int) : List (List String) :=
  match rows with
  | [] => []
  | row :: rest =>
    if rowMatches item unit row then setIdx row 3 (numToCell newStock) :: rest
    else row :: updateStockPure rest item unit newStock

/-- Some stock row matches `(item, unit)`. -/
def rowExistsB (rows : List (List String)) (item unit : String) : Bool :=
  rows.any (rowMatches item unit)

/-! ## Fault environment and the effectful ledger functions

`server.js` performs five external spreadsheet API calls; each flag makes
the corresponding call raise, modelling the exception paths of the three
`try`/`catch` blocks. -/

/-- Which of the five spreadsheet API call sites raise in this run. -/
structure FaultEnv where
  getStockGetFails : Bool
  addOrderGetFails : Bool
  addOrderAppendFails : Bool
  updateGetFails : Bool
  updateUpdateFails : Bool
  deriving DecidableEq

/-- The all-success environment. -/
def okEnv : FaultEnv := ⟨false, false, false, false, false⟩

/-- `getStock(item, unit)`: its `catch` logs and rethrows, so an API
failure propagates to the caller as an exception (`Except.error`). -/
def getStock (env : FaultEnv) (st : SheetsState) (item unit : String) :
    Except Unit StockData :=
  if env.getStockGetFails then .error ()
  else .ok (getStockPure st.stockRows item unit)

/-- The row appended by `addOrder`:
`[orderNo, timestamp, customer, item, qty, unit, '', deliver,
'รอดำเนินการ', '', total]`. -/
def newOrderRow (orderNo : Nat) (now customer item : String)
    (qty : Option Int) (unit deliver : String) (total : Option Int) :
    List String :=
  [natToDec orderNo, now, customer, item, numToCell qty, unit, "", deliver,
    "รอดำเนินการ", "", numToCell total]

/-- `addOrder`: reads the orders range, assigns `orderNo = rows.length + 1`
and appends one row; its `catch` swallows any exception and returns the
sentinel `0`, leaving the sheet as it was. `now` is the
`new Date().toISOString()` timestamp, an external input. -/
def addOrder (env : FaultEnv) (st : SheetsState) (item : String)
    (qty : Option Int) (unit customer deliver : String)
    (total : Option Int) (now : String) : Nat × SheetsState :=
  if env.addOrderGetFails then (0, st)
  else
    let orderNo := st.orderRows.length + 1
    if env.addOrderAppendFails then (0, st)
    else (orderNo,
      { st with orderRows :=
          st.orderRows ++ [newOrderRow orderNo now customer item qty unit deliver total] })

/-- `updateStock`: re-scans for the first matching row and overwrites its
column-D cell with `newStock`; its `catch` swallows any exception, so a
failing API call (and equally a missing row) leaves the sheet unchanged and
returns normally. -/
def updateStock (env : FaultEnv) (st : SheetsState) (item unit : String)
    (newStock : Option Int) : SheetsState :=
  if env.updateGetFails then st
  else if env.updateUpdateFails then st
  else { st with stockRows := updateStockPure st.stockRows item unit newStock }

/-! ## The order workflow (`parseOrder`) -/

/-- The Order-Intent extracted from a successful match (lines 104-108):
`customer = match[1] || 'ลูกค้าไม่ระบุ'`, `item = match[2]`,
`qty = parseInt(match[3])`, `unit = match[4] || 'ชิ้น'`,
`deliver = match[5] || 'ไม่ระบุ'`. -/
structure OrderIntent where
  customer : String
  item : String
  qty : Option Int
  unit : String
  deliver : String
  deriving DecidableEq

/-- Field extraction of `parseOrder` from the raw match. -/
def extractIntent (m : RawMatch) : OrderIntent where
  customer := jsOrElse m.g1 "ลูกค้าไม่ระบุ"
  item := m.g2.asString
  qty := jsParseInt m.g3.asString
  unit := jsOrElse m.g4 "ชิ้น"
  deliver := jsOrElse m.g5 "ไม่ระบุ"

/-- The success reply template
```${customer} ค่ะ!\n${item} ${qty}${unit} = ${total}฿\nส่งโดย ${deliver}\nรหัส: ${orderNo}```. -/
def orderReply (it : OrderIntent) (total : Option Int) (orderNo : Nat) :
    String :=
  it.customer ++ " ค่ะ!\n" ++ it.item ++ " " ++ numToCell it.qty ++ it.unit
    ++ " = " ++ numToCell total ++ "฿\nส่งโดย " ++ it.deliver
    ++ "\nรหัส: " ++ natToDec orderNo

/-- The fixed not-understood reply. -/
def msgNotUnderstood : String := "ไม่เข้าใจคำสั่งค่ะ"

/-- The insufficient-stock reply `` `สต็อก${item}ไม่พอ!` ``. -/
def msgInsufficient (item : String) : String := "สต็อก" ++ item ++ "ไม่พอ!"

/-- The generic error reply of the webhook handler's `catch`. -/
def msgInternalError : String := "เกิดข้อผิดพลาดภายในระบบ"

/-- `parseOrder(text)` — the Order Workflow (spec §4.2 `handleUtterance`):
parse, read stock, sufficiency gate, append order, write decremented
stock, build the reply. The result pairs the reply with the final sheet
state; `Except.error` is an exception escaping the function (only
`getStock` rethrows). -/
def parseOrder (env : FaultEnv) (now : String) (st : SheetsState)
    (text : String) : Except Unit (String × SheetsState) :=
  match findMatchFrom text.data with
  | none => .ok (msgNotUnderstood, st)
  | some m =>
    let it := extractIntent m
    match getStock env st it.item it.unit with
    | .error e => .error e
    | .ok sd =>
      if jsLt sd.stock it.qty then .ok (msgInsufficient it.item, st)
      else
        let total := jsMul sd.price it.qty
        let res := addOrder env st it.item it.qty it.unit it.customer
          it.deliver total now
        let st2 := updateStock env res.2 it.item it.unit (jsSub sd.stock it.qty)
        .ok (orderReply it total res.1, st2)

/-- The `/webhook` text-message path: `parseOrder`'s reply is sent back;
an exception is caught by the surrounding `try`/`catch` and answered with
the generic error reply (the sheet is as it was, since only the
non-mutating `getStock` can throw). -/
def handleTextEvent (env : FaultEnv) (now : String) (st : SheetsState)
    (text : String) : String × SheetsState :=
  match parseOrder env now st text with
  | .ok r => r
  | .error _ => (msgInternalError, st)

/-! ## Matcher inversion lemmas -/

theorem starGreedy_eq_some {α : Type} (p : Char → Bool) (r : α) :
    ∀ (cs acc : List Char) (k : List Char → List Char → Option α),
      starGreedy p acc cs k = some r →
      ∃ ext rest, (∀ c ∈ ext, p c = true) ∧ rest <:+ cs ∧
        k (acc.reverse ++ ext) rest = some r := by
  intro cs
  induction cs with
  | nil =>
    intro acc k h
    exact ⟨[], [], by simp, List.suffix_rfl, by simpa [starGreedy] using h⟩
  | cons c cs ih =>
    intro acc k h
    rw [starGreedy] at h
    by_cases hp : p c
    · rw [if_pos hp] at h
      cases hin : starGreedy p (c :: acc) cs k with
      | some r' =>
        rw [hin] at h
        obtain ⟨ext, rest, hall, hsuf, hk⟩ := ih (c :: acc) k (hin.trans h)
        refine ⟨c :: ext, rest, ?_, hsuf.trans (List.suffix_cons c cs), ?_⟩
        · intro a ha
          rcases List.mem_cons.mp ha with rfl | ha
          · exact hp
          · exact hall a ha
        · simpa [List.append_assoc] using hk
      | none =>
        rw [hin] at h
        exact ⟨[], c :: cs, by simp, List.suffix_rfl, by simpa using h⟩
    · rw [if_neg hp] at h
      exact ⟨[], c :: cs, by simp, List.suffix_rfl, by simpa using h⟩

theorem plusGreedy_eq_some {α : Type} (p : Char → Bool) (r : α)
    (cs : List Char) (k : List Char → List Char → Option α)
    (h : plusGreedy p cs k = some r) :
    ∃ g rest, g ≠ [] ∧ (∀ c ∈ g, p c = true) ∧ rest <:+ cs ∧
      k g rest = some r := by
  cases cs with
  | nil => simp [plusGreedy] at h
  | cons c cs =>
    rw [plusGreedy] at h
    by_cases hp : p c
    · rw [if_pos hp] at h
      obtain ⟨ext, rest, hall, hsuf, hk⟩ := starGreedy_eq_some p r cs [c] k h
      refine ⟨c :: ext, rest, by simp, ?_, hsuf.trans (List.suffix_cons c cs), by simpa using hk⟩
      intro a ha
      rcases List.mem_cons.mp ha with rfl | ha
      · exact hp
      · exact hall a ha
    · rw [if_neg hp] at h
      exact absurd h (by simp)

theorem litHere_suffix :
    ∀ (tok cs rest : List Char), litHere tok cs = some rest → rest <:+ cs := by
  intro tok
  induction tok with
  | nil =>
    intro cs rest h
    rw [litHere] at h
    cases h
    exact List.suffix_rfl
  | cons t ts ih =>
    intro cs rest h
    cases cs with
    | nil => simp [litHere] at h
    | cons c cs =>
      rw [litHere] at h
      by_cases hc : c = t
      · rw [if_pos hc] at h
        exact (ih cs rest h).trans (List.suffix_cons c cs)
      · rw [if_neg hc] at h
        cases h

theorem litTok_eq_some {α : Type} (tok cs : List Char)
    (k : List Char → Option α) (r : α) (h : litTok tok cs k = some r) :
    ∃ rest, litHere tok cs = some rest ∧ k rest = some r := by
  rw [litTok] at h
  cases hl : litHere tok cs with
  | none => rw [hl] at h; cases h
  | some rest => rw [hl] at h; exact ⟨rest, rfl, h⟩

theorem optPlus_eq_some {α : Type} (p : Char → Bool) (cs : List Char)
    (k : Option (List Char) → List Char → Option α) (r : α)
    (h : optPlus p cs k = some r) :
    (∃ g rest, g ≠ [] ∧ (∀ c ∈ g, p c = true) ∧ k (some g) rest = some r) ∨
      k none cs = some r := by
  rw [optPlus] at h
  cases hin : plusGreedy p cs (fun g rest => k (some g) rest) with
  | some r' =>
    rw [hin] at h
    obtain ⟨g, rest, hne, hall, _, hk⟩ := plusGreedy_eq_some p r' cs _ hin
    exact Or.inl ⟨g, rest, hne, hall, hk.trans h⟩
  | none =>
    rw [hin] at h
    exact Or.inr h

theorem optDeliver_eq_some {α : Type} (cs : List Char)
    (k : Option (List Char) → List Char → Option α) (r : α)
    (h : optDeliver cs k = some r) :
    (∃ g rest, g ≠ [] ∧ (∀ c ∈ g, isThai c = true) ∧ k (some g) rest = some r) ∨
      k none cs = some r := by
  rw [optDeliver] at h
  cases hin : litTok kwDeliver cs (fun cs1 =>
      starGreedy isJsSpace [] cs1 (fun _ cs2 =>
      plusGreedy isThai cs2 (fun g rest => k (some g) rest))) with
  | some r' =>
    rw [hin] at h
    obtain ⟨cs1, _, hk1⟩ := litTok_eq_some _ _ _ _ hin
    obtain ⟨_, cs2, _, _, hk2⟩ := starGreedy_eq_some _ _ _ _ _ hk1
    obtain ⟨g, rest, hne, hall, _, hk3⟩ := plusGreedy_eq_some _ _ _ _ hk2
    exact Or.inl ⟨g, rest, hne, hall, hk3.trans h⟩
  | none =>
    rw [hin] at h
    exact Or.inr h

/-- Field facts established by a successful match of the tail of the
pattern: the order keyword sits at the head of the input, group 2 is a
nonempty Thai run, group 3 a nonempty digit run, groups 4/5 nonempty when
present, and group 1 is whatever the leading group supplied. -/
theorem matchAfterCustomer_eq_some (g1 : Option (List Char))
    (cs : List Char) (m : RawMatch) (h : matchAfterCustomer g1 cs = some m) :
    (litHere kwOrder cs).isSome = true ∧ m.g1 = g1 ∧
      m.g2 ≠ [] ∧ (∀ c ∈ m.g2, isThai c = true) ∧
      m.g3 ≠ [] ∧ (∀ c ∈ m.g3, isDigit10 c = true) ∧
      (∀ g, m.g4 = some g → g ≠ []) ∧ (∀ g, m.g5 = some g → g ≠ []) := by
  rw [matchAfterCustomer] at h
  obtain ⟨cs2, hlit, hk1⟩ := litTok_eq_some _ _ _ _ h
  obtain ⟨_, cs3, _, _, hk2⟩ := starGreedy_eq_some _ _ _ _ _ hk1
  obtain ⟨g2, cs4, hg2ne, hg2th, _, hk3⟩ := plusGreedy_eq_some _ _ _ _ hk2
  obtain ⟨_, cs5, _, _, hk4⟩ := starGreedy_eq_some _ _ _ _ _ hk3
  obtain ⟨g3, cs6, hg3ne, hg3d, _, hk5⟩ := plusGreedy_eq_some _ _ _ _ hk4
  obtain ⟨_, cs7, _, _, hk6⟩ := starGreedy_eq_some _ _ _ _ _ hk5
  rcases optPlus_eq_some _ _ _ _ hk6 with ⟨g4, cs8, hg4ne, _, hk7⟩ | hk7 <;>
  · obtain ⟨_, cs9, _, _, hk8⟩ := starGreedy_eq_some _ _ _ _ _ hk7
    rcases optDeliver_eq_some _ _ _ hk8 with ⟨g5, rest, hg5ne, _, hk9⟩ | hk9 <;>
    · simp only [Option.some.injEq] at hk9
      subst hk9
      refine ⟨by simp [hlit], rfl, hg2ne, hg2th, hg3ne, hg3d, ?_, ?_⟩ <;>
        intro g hg <;>
        first
          | (injection hg with hg2; subst hg2; assumption)
          | exact Option.noConfusion hg

/-- Field facts established by a successful match attempt at one start
position. -/
theorem matchAt_eq_some (cs : List Char) (m : RawMatch)
    (h : matchAt cs = some m) :
    (∃ cs', cs' <:+ cs ∧ (litHere kwOrder cs').isSome = true) ∧
      m.g2 ≠ [] ∧ (∀ c ∈ m.g2, isThai c = true) ∧
      m.g3 ≠ [] ∧ (∀ c ∈ m.g3, isDigit10 c = true) ∧
      (∀ g, m.g1 = some g → g ≠ []) ∧
      (∀ g, m.g4 = some g → g ≠ []) ∧ (∀ g, m.g5 = some g → g ≠ []) := by
  rw [matchAt] at h
  cases hin : plusGreedy isThai cs (fun g1 cs1 =>
      plusGreedy isJsSpace cs1 (fun _ cs2 =>
      matchAfterCustomer (some g1) cs2)) with
  | some r' =>
    rw [hin] at h
    obtain ⟨g1, cs1, hg1ne, _, hsuf1, hk1⟩ := plusGreedy_eq_some _ _ _ _ hin
    obtain ⟨_, cs2, _, _, hsuf2, hk2⟩ := plusGreedy_eq_some _ _ _ _ hk1
    obtain ⟨hlit, hmg1, hrest⟩ := matchAfterCustomer_eq_some _ _ _ (hk2.trans h)
    refine ⟨⟨cs2, hsuf2.trans hsuf1, hlit⟩, hrest.1, hrest.2.1, hrest.2.2.1,
      hrest.2.2.2.1, ?_, hrest.2.2.2.2.1, hrest.2.2.2.2.2⟩
    intro g hg'
    rw [hmg1] at hg'
    injection hg' with hg''
    subst hg''
    exact hg1ne
  | none =>
    rw [hin] at h
    obtain ⟨hlit, hmg1, hrest⟩ := matchAfterCustomer_eq_some _ _ _ h
    refine ⟨⟨cs, List.suffix_rfl, hlit⟩, hrest.1, hrest.2.1, hrest.2.2.1,
      hrest.2.2.2.1, ?_, hrest.2.2.2.2.1, hrest.2.2.2.2.2⟩
    intro g hg'
    rw [hmg1] at hg'
    exact Option.noConfusion hg'

/-- Field facts established by a successful leftmost search. -/
theorem findMatchFrom_eq_some (cs : List Char) (m : RawMatch)
    (h : findMatchFrom cs = some m) :
    (∃ cs', cs' <:+ cs ∧ (litHere kwOrder cs').isSome = true) ∧
      m.g2 ≠ [] ∧ (∀ c ∈ m.g2, isThai c = true) ∧
      m.g3 ≠ [] ∧ (∀ c ∈ m.g3, isDigit10 c = true) ∧
      (∀ g, m.g1 = some g → g ≠ []) ∧
      (∀ g, m.g4 = some g → g ≠ []) ∧ (∀ g, m.g5 = some g → g ≠ []) := by
  induction cs with
  | nil => exact matchAt_eq_some [] m h
  | cons c cs ih =>
    rw [findMatchFrom] at h
    cases hat : matchAt (c :: cs) with
    | some r' =>
      rw [hat] at h
      exact matchAt_eq_some _ _ (hat.trans h)
    | none =>
      rw [hat] at h
      obtain ⟨⟨cs', hsuf, hlit⟩, hrest⟩ := ih h
      exact ⟨⟨cs', hsuf.trans (List.suffix_cons c cs), hlit⟩, hrest⟩

/-- A token found at the head of a suffix occurs in the whole list. -/
theorem containsTok_append (tok : List Char) :
    ∀ (t cs' : List Char), (litHere tok cs').isSome = true →
      containsTok tok (t ++ cs') = true := by
  intro t
  induction t with
  | nil =>
    intro cs' h
    cases cs' with
    | nil => simpa [containsTok] using h
    | cons c cs => simp [containsTok, h]
  | cons a t ih =>
    intro cs' h
    simp only [List.cons_append, containsTok, Bool.or_eq_true]
    exact Or.inr (ih cs' h)

/-- If the order keyword does not occur in the input, the regex cannot
match anywhere. -/
theorem findMatchFrom_eq_none (cs : List Char)
    (h : containsTok kwOrder cs = false) : findMatchFrom cs = none := by
  cases hf : findMatchFrom cs with
  | none => rfl
  | some m =>
    obtain ⟨⟨cs', ⟨t, ht⟩, hlit⟩, _⟩ := findMatchFrom_eq_some cs m hf
    rw [← ht, containsTok_append kwOrder t cs' hlit] at h
    cases h

/-! ## Digit-string lemmas -/

theorem isDigit10_toNat {c : Char} (h : isDigit10 c = true) :
    48 ≤ c.toNat ∧ c.toNat ≤ 57 := by
  simpa [isDigit10, Bool.and_eq_true, decide_eq_true_eq] using h

theorem isJsSpace_eq_false {c : Char} (h1 : 48 ≤ c.toNat)
    (h2 : c.toNat ≤ 57) : isJsSpace c = false := by
  by_contra hne
  have hb : isJsSpace c = true := by revert hne; cases isJsSpace c <;> simp
  simp only [isJsSpace, Bool.or_eq_true, Bool.and_eq_true, decide_eq_true_eq,
    beq_iff_eq] at hb
  omega

theorem decDigit_toNat {d : Nat} (h : d < 10) : (decDigit d).toNat = 48 + d := by
  interval_cases d <;> decide

theorem isDigit10_decDigit {d : Nat} (h : d < 10) :
    isDigit10 (decDigit d) = true := by
  interval_cases d <;> decide

theorem natDigitsRevAux_all_digits :
    ∀ fuel n, ∀ c ∈ natDigitsRevAux fuel n, isDigit10 c = true := by
  intro fuel
  induction fuel with
  | zero => intro n c hc; simp [natDigitsRevAux] at hc
  | succ f ih =>
    intro n c hc
    cases n with
    | zero => simp [natDigitsRevAux] at hc
    | succ m =>
      rw [natDigitsRevAux] at hc
      rcases List.mem_cons.mp hc with rfl | hc
      · exact isDigit10_decDigit (Nat.mod_lt _ (by omega))
      · exact ih _ c hc

theorem lsbVal_natDigitsRevAux :
    ∀ fuel n, n ≤ fuel → lsbVal (natDigitsRevAux fuel n) = n := by
  intro fuel
  induction fuel with
  | zero => intro n h; interval_cases n; simp [natDigitsRevAux, lsbVal]
  | succ f ih =>
    intro n h
    cases n with
    | zero => simp [natDigitsRevAux, lsbVal]
    | succ m =>
      rw [natDigitsRevAux, lsbVal]
      have hdiv : (m + 1) / 10 ≤ f := by
        have := Nat.div_lt_self (show 0 < m + 1 by omega) (show 1 < 10 by omega)
        omega
      rw [ih _ hdiv, decDigit_toNat (Nat.mod_lt _ (by omega))]
      have := Nat.mod_add_div (m + 1) 10
      omega

theorem digitsVal_append_singleton (cs : List Char) (c : Char) :
    digitsVal (cs ++ [c]) = 10 * digitsVal cs + (c.toNat - 48) := by
  simp [digitsVal, List.foldl_append]

theorem digitsVal_reverse (cs : List Char) :
    digitsVal cs.reverse = lsbVal cs := by
  induction cs with
  | nil => rfl
  | cons c cs ih =>
    rw [List.reverse_cons, digitsVal_append_singleton, ih, lsbVal]
    omega

theorem takeWhile_eq_self_of_all {p : Char → Bool} :
    ∀ cs : List Char, (∀ c ∈ cs, p c = true) → cs.takeWhile p = cs := by
  intro cs
  induction cs with
  | nil => intro _; rfl
  | cons c cs ih =>
    intro hall
    rw [List.takeWhile_cons, if_pos (hall c (by simp)),
      ih fun a ha => hall a (by simp [ha])]

theorem parseDec_all_digits (cs : List Char) (hne : cs ≠ [])
    (hall : ∀ c ∈ cs, isDigit10 c = true) :
    parseDec cs = some (digitsVal cs) := by
  rw [parseDec]
  simp only [takeWhile_eq_self_of_all cs hall]
  rw [if_neg (by simpa [List.isEmpty_iff] using hne)]

theorem parseUnsigned_all_digits (cs : List Char) (hne : cs ≠ [])
    (hall : ∀ c ∈ cs, isDigit10 c = true) :
    parseUnsigned cs = some (digitsVal cs) := by
  match cs with
  | [] => exact absurd rfl hne
  | [c] => exact parseDec_all_digits [c] hne hall
  | c0 :: c1 :: rest =>
    rw [parseUnsigned]
    have h1 := isDigit10_toNat (hall c1 (by simp))
    rw [if_neg ?_]
    · exact parseDec_all_digits _ hne hall
    · rintro ⟨-, hx | hx⟩ <;> (subst hx; revert h1; decide)

theorem jsParseInt_eq_of_digits (s : String) (hne : s.data ≠ [])
    (hall : ∀ c ∈ s.data, isDigit10 c = true) :
    jsParseInt s = some ((digitsVal s.data : Nat) : Int) := by
  rw [jsParseInt]
  match hd : s.data with
  | [] => exact absurd hd hne
  | c :: rest =>
    have hc := isDigit10_toNat (hall c (by simp [hd]))
    rw [List.dropWhile_cons, if_neg (by simp [isJsSpace_eq_false hc.1 hc.2])]
    rw [jsParseIntAux, if_neg ?_, if_neg ?_]
    · rw [parseUnsigned_all_digits (c :: rest) (by simp) (hd ▸ hall)]
      simp [hd]
    · intro h; subst h; revert hc; decide
    · intro h; subst h; revert hc; decide

theorem natToDec_data_ne_nil (n : Nat) : (natToDec n).data ≠ [] := by
  rw [natToDec]
  by_cases h : n = 0
  · subst h; simp
  · rw [if_neg h]
    match n, h with
    | m + 1, _ =>
      show (List.reverse _).asString.data ≠ []
      rw [natDigitsRevAux]
      simp [List.asString]

theorem natToDec_data_digits (n : Nat) :
    ∀ c ∈ (natToDec n).data, isDigit10 c = true := by
  rw [natToDec]
  by_cases h : n = 0
  · subst h; simp; decide
  · rw [if_neg h]
    intro c hc
    have : c ∈ natDigitsRevAux n n := by
      simpa [List.asString, List.mem_reverse] using hc
    exact natDigitsRevAux_all_digits n n c this

theorem digitsVal_natToDec (n : Nat) : digitsVal (natToDec n).data = n := by
  rw [natToDec]
  by_cases h : n = 0
  · subst h; decide
  · rw [if_neg h]
    show digitsVal (natDigitsRevAux n n).reverse = n
    rw [digitsVal_reverse, lsbVal_natDigitsRevAux n n le_rfl]

theorem jsParseInt_natToDec (n : Nat) :
    jsParseInt (natToDec n) = some (n : Int) := by
  rw [jsParseInt_eq_of_digits _ (natToDec_data_ne_nil n) (natToDec_data_digits n),
    digitsVal_natToDec]

theorem parseUnsigned_natToDec (n : Nat) :
    parseUnsigned (natToDec n).data = some n := by
  rw [parseUnsigned_all_digits _ (natToDec_data_ne_nil n) (natToDec_data_digits n),
    digitsVal_natToDec]

theorem jsParseInt_intToDec (n : Int) : jsParseInt (intToDec n) = some n := by
  rw [intToDec]
  by_cases h : n < 0
  · rw [if_pos h, jsParseInt]
    have hdata : ("-" ++ natToDec n.natAbs).data = '-' :: (natToDec n.natAbs).data := by
      simp
    rw [hdata, List.dropWhile_cons, if_neg (by decide), jsParseIntAux,
      if_pos rfl, parseUnsigned_natToDec]
    show some (-((n.natAbs : Nat) : Int)) = some n
    congr 1
    omega
  · rw [if_neg h, jsParseInt_natToDec]
    congr 1
    omega

theorem intToDec_ne_empty (n : Int) : intToDec n ≠ "" := by
  rw [intToDec]
  by_cases h : n < 0
  · rw [if_pos h]
    intro hcon
    have := congrArg String.data hcon
    simp at this
  · rw [if_neg h]
    intro hcon
    exact natToDec_data_ne_nil n.toNat (by rw [hcon])

/-! ## Ledger lemmas: the write and the read select the same first
matching row -/

theorem get?_setIdx_self : ∀ (row : List String) (i : Nat) (v : String),
    (setIdx row i v).get? i = some v := by
  intro row
  induction row with
  | nil =>
    intro i v
    induction i with
    | zero => rfl
    | succ j ihj => simpa [setIdx] using ihj
  | cons c rest ih =>
    intro i v
    cases i with
    | zero => rfl
    | succ j => simpa [setIdx] using ih j v

theorem rowMatches_shape {item unit : String} {row : List String}
    (h : rowMatches item unit row = true) :
    ∃ rest, row = item :: unit :: rest := by
  match row with
  | [] => simp [rowMatches, cellEq] at h
  | [a] => simp [rowMatches, cellEq] at h
  | a :: b :: rest =>
    simp only [rowMatches, cellEq, List.get?, Bool.and_eq_true,
      decide_eq_true_eq] at h
    exact ⟨rest, by rw [h.1, h.2]⟩

theorem rowMatches_setIdx3 {item unit : String} {row : List String}
    (v : String) (h : rowMatches item unit row = true) :
    rowMatches item unit (setIdx row 3 v) = true ∧
      (setIdx row 3 v).get? 3 = some v := by
  obtain ⟨rest, rfl⟩ := rowMatches_shape h
  refine ⟨?_, get?_setIdx_self _ 3 v⟩
  show rowMatches item unit (item :: unit :: setIdx rest 1 v) = true
  simp [rowMatches, cellEq]

/-- Reading right after writing `n` hits the same first matching row and
parses the written value back. -/
theorem getStockPure_updateStockPure (item unit : String) (n : Int) :
    ∀ rows : List (List String), rowExistsB rows item unit = true →
      (getStockPure (updateStockPure rows item unit (some n)) item unit).stock
        = some n := by
  intro rows
  induction rows with
  | nil => intro h; simp [rowExistsB] at h
  | cons row rest ih =>
    intro h
    cases hm : rowMatches item unit row with
    | true =>
      obtain ⟨hm', hget⟩ := rowMatches_setIdx3 (numToCell (some n)) hm
      rw [updateStockPure, if_pos hm, getStockPure, if_pos hm']
      show cellIntOrZero (setIdx row 3 (numToCell (some n))) 3 = some n
      rw [cellIntOrZero, hget]
      show (if intToDec n = "" then some 0 else jsParseInt (intToDec n)) = some n
      rw [if_neg (intToDec_ne_empty n)]
      exact jsParseInt_intToDec n
    | false =>
      rw [updateStockPure, if_neg (by simp [hm]), getStockPure,
        if_neg (by simp [hm])]
      refine ih ?_
      simpa [rowExistsB, hm] using h

/-- With no matching row the write is a silent no-op. -/
theorem updateStockPure_no_match (item unit : String) (v : Option Int) :
    ∀ rows : List (List String), rowExistsB rows item unit = false →
      updateStockPure rows item unit v = rows := by
  intro rows
  induction rows with
  | nil => intro _; rfl
  | cons row rest ih =>
    intro h
    simp only [rowExistsB, List.any_cons, Bool.or_eq_false_iff] at h
    rw [updateStockPure, if_neg (by simp [h.1])]
    rw [ih h.2]

/-- With no matching row the read yields the `{stock: 0, price: 0}`
default. -/
theorem getStockPure_no_match (item unit : String) :
    ∀ rows : List (List String), rowExistsB rows item unit = false →
      getStockPure rows item unit = ⟨some 0, some 0⟩ := by
  intro rows
  induction rows with
  | nil => intro _; rfl
  | cons row rest ih =>
    intro h
    simp only [rowExistsB, List.any_cons, Bool.or_eq_false_iff] at h
    rw [getStockPure, if_neg (by simp [h.1])]
    exact ih h.2

/-- Combined: whenever a read found stock `s`, a write of `v` followed by a
read yields `v` if a row exists, and the read-back equals `s` precisely in
the no-row case where `s = 0 = v`-irrelevant. -/
theorem stock_after_write_cases (rows : List (List String))
    (item unit : String) (s n : Int)
    (hs : (getStockPure rows item unit).stock = some s) :
    (rowExistsB rows item unit = true ∧
       (getStockPure (updateStockPure rows item unit (some n)) item unit).stock
         = some n) ∨
      (rowExistsB rows item unit = false ∧ s = 0 ∧
        updateStockPure rows item unit (some n) = rows) := by
  cases hex : rowExistsB rows item unit with
  | true => exact Or.inl ⟨rfl, getStockPure_updateStockPure item unit n rows hex⟩
  | false =>
    refine Or.inr ⟨rfl, ?_, updateStockPure_no_match item unit (some n) rows hex⟩
    rw [getStockPure_no_match item unit rows hex] at hs
    simpa using hs.symm

/-! ## Workflow reduction lemmas -/

theorem addOrder_fails (env : FaultEnv) (st : SheetsState) (item : String)
    (qty : Option Int) (unit customer deliver : String) (total : Option Int)
    (now : String) (h : env.addOrderAppendFails = true) :
    addOrder env st item qty unit customer deliver total now = (0, st) := by
  by_cases hg : env.addOrderGetFails <;> simp [addOrder, hg, h]

theorem addOrder_ok (env : FaultEnv) (st : SheetsState) (item : String)
    (qty : Option Int) (unit customer deliver : String) (total : Option Int)
    (now : String) (h1 : env.addOrderGetFails = false)
    (h2 : env.addOrderAppendFails = false) :
    addOrder env st item qty unit customer deliver total now =
      (st.orderRows.length + 1,
        { st with orderRows := st.orderRows ++
            [newOrderRow (st.orderRows.length + 1) now customer item qty unit
              deliver total] }) := by
  simp [addOrder, h1, h2]

theorem updateStock_ok (env : FaultEnv) (st : SheetsState)
    (item unit : String) (v : Option Int) (h1 : env.updateGetFails = false)
    (h2 : env.updateUpdateFails = false) :
    updateStock env st item unit v =
      { st with stockRows := updateStockPure st.stockRows item unit v } := by
  simp [updateStock, h1, h2]

theorem parseOrder_eq_reject (env : FaultEnv) (now : String)
    (st : SheetsState) (text : String) (m : RawMatch)
    (hm : findMatchFrom text.data = some m)
    (henv : env.getStockGetFails = false)
    (hlt : jsLt (getStockPure st.stockRows (extractIntent m).item
      (extractIntent m).unit).stock (extractIntent m).qty = true) :
    parseOrder env now st text =
      .ok (msgInsufficient (extractIntent m).item, st) := by
  simp [parseOrder, hm, getStock, henv, hlt]

theorem parseOrder_eq_accept (env : FaultEnv) (now : String)
    (st : SheetsState) (text : String) (m : RawMatch)
    (hm : findMatchFrom text.data = some m)
    (henv : env.getStockGetFails = false)
    (hlt : jsLt (getStockPure st.stockRows (extractIntent m).item
      (extractIntent m).unit).stock (extractIntent m).qty = false) :
    parseOrder env now st text =
      .ok (orderReply (extractIntent m)
            (jsMul (getStockPure st.stockRows (extractIntent m).item
              (extractIntent m).unit).price (extractIntent m).qty)
            (addOrder env st (extractIntent m).item (extractIntent m).qty
              (extractIntent m).unit (extractIntent m).customer
              (extractIntent m).deliver
              (jsMul (getStockPure st.stockRows (extractIntent m).item
                (extractIntent m).unit).price (extractIntent m).qty) now).1,
          updateStock env
            (addOrder env st (extractIntent m).item (extractIntent m).qty
              (extractIntent m).unit (extractIntent m).customer
              (extractIntent m).deliver
              (jsMul (getStockPure st.stockRows (extractIntent m).item
                (extractIntent m).unit).price (extractIntent m).qty) now).2
            (extractIntent m).item (extractIntent m).unit
            (jsSub (getStockPure st.stockRows (extractIntent m).item
              (extractIntent m).unit).stock (extractIntent m).qty)) := by
  simp [parseOrder, hm, getStock, henv, hlt]

/-! ## Claim theorems -/

/-- **C1.** For every input text and ledger state in which the stock
recorded for the parsed (item, unit) pair is strictly less than the parsed
quantity, the workflow returns the formatted insufficient-stock message for
that item and performs no side effects: the sheet state is returned
unchanged, so no order row is appended and no stock cell is written. -/
theorem insufficient_stock_gate (env : FaultEnv) (now : String)
    (st : SheetsState) (text : String) (m : RawMatch) (s q : Int)
    (henv : env.getStockGetFails = false)
    (hm : findMatchFrom text.data = some m)
    (hq : (extractIntent m).qty = some q)
    (hs : (getStockPure st.stockRows (extractIntent m).item
      (extractIntent m).unit).stock = some s)
    (hlt : s < q) :
    parseOrder env now st text =
      .ok (msgInsufficient (extractIntent m).item, st) := by
  refine parseOrder_eq_reject env now st text m hm henv ?_
  simp [jsLt, hq, hs, hlt]

/-- Witness for C1: `"สั่งมะนาว99ลูก"` against a ledger holding 10 ลูก of
มะนาว is rejected with the message and an unchanged sheet. -/
theorem insufficient_stock_gate_witness :
    findMatchFrom "สั่งมะนาว99ลูก".data =
        some ⟨none, "มะนาว".data, "99".data, some "ลูก".data, none⟩ ∧
      parseOrder okEnv "T0"
          ⟨[["มะนาว", "ลูก", "", "10", "5"]], [["x"]]⟩ "สั่งมะนาว99ลูก" =
        .ok (msgInsufficient "มะนาว",
          ⟨[["มะนาว", "ลูก", "", "10", "5"]], [["x"]]⟩) :=
  ⟨by decide,
    insufficient_stock_gate okEnv "T0"
      ⟨[["มะนาว", "ลูก", "", "10", "5"]], [["x"]]⟩ "สั่งมะนาว99ลูก"
      ⟨none, "มะนาว".data, "99".data, some "ลูก".data, none⟩ 10 99
      rfl (by decide) (by decide) (by decide) (by decide)⟩

/-- **C4.** For every input text not containing the order keyword `สั่ง`,
the parser fails and the workflow returns exactly the fixed not-understood
message with the sheet state untouched, for every fault environment — in
particular no ledger call (stock read, order append, stock write) is ever
consulted. -/
theorem not_understood_no_ledger (env : FaultEnv) (now : String)
    (st : SheetsState) (text : String)
    (h : containsTok kwOrder text.data = false) :
    parseOrder env now st text = .ok (msgNotUnderstood, st) := by
  rw [parseOrder, findMatchFrom_eq_none text.data h]

/-- Witness for C4: a greeting without the keyword, under an environment
where every ledger call would fail, still yields the fixed reply and the
unchanged sheet. -/
theorem not_understood_no_ledger_witness :
    containsTok kwOrder "สวัสดีครับ".data = false ∧
      parseOrder ⟨true, true, true, true, true⟩ "T0"
          ⟨[["มะนาว", "ลูก", "", "10", "5"]], []⟩ "สวัสดีครับ" =
        .ok (msgNotUnderstood, ⟨[["มะนาว", "ลูก", "", "10", "5"]], []⟩) :=
  ⟨by decide,
    not_understood_no_ledger ⟨true, true, true, true, true⟩ "T0"
      ⟨[["มะนาว", "ลูก", "", "10", "5"]], []⟩ "สวัสดีครับ" (by decide)⟩

/-- `match[i] || dflt` never produces the empty string when the default is
nonempty. -/
theorem jsOrElse_ne_empty (g : Option (List Char)) (dflt : String)
    (hd : dflt ≠ "") : jsOrElse g dflt ≠ "" := by
  match g with
  | none => exact hd
  | some cs =>
    rw [jsOrElse]
    by_cases hc : cs.asString = ""
    · rw [if_pos hc]; exact hd
    · rw [if_neg hc]; exact hc

/-- **C9.** For every matched input in which the customer, unit, or
delivery group is absent, the corresponding Order-Intent field equals its
documented default sentinel (`ลูกค้าไม่ระบุ`, `ชิ้น`, `ไม่ระบุ`
respectively); and those three fields are never the empty string. -/
theorem intent_defaults (text : String) (m : RawMatch)
    (hm : findMatchFrom text.data = some m) :
    (m.g1 = none → (extractIntent m).customer = "ลูกค้าไม่ระบุ") ∧
      (m.g4 = none → (extractIntent m).unit = "ชิ้น") ∧
      (m.g5 = none → (extractIntent m).deliver = "ไม่ระบุ") ∧
      (extractIntent m).customer ≠ "" ∧ (extractIntent m).unit ≠ "" ∧
      (extractIntent m).deliver ≠ "" := by
  refine ⟨fun h1 => by simp [extractIntent, jsOrElse, h1],
    fun h4 => by simp [extractIntent, jsOrElse, h4],
    fun h5 => by simp [extractIntent, jsOrElse, h5],
    jsOrElse_ne_empty _ _ (by decide), jsOrElse_ne_empty _ _ (by decide),
    jsOrElse_ne_empty _ _ (by decide)⟩

/-- Witness for C9: `"สั่งมะนาว3"` has all three optional groups absent and
gets all three defaults. -/
theorem intent_defaults_witness :
    findMatchFrom "สั่งมะนาว3".data =
        some ⟨none, "มะนาว".data, "3".data, none, none⟩ ∧
      (extractIntent ⟨none, "มะนาว".data, "3".data, none, none⟩).customer =
        "ลูกค้าไม่ระบุ" ∧
      (extractIntent ⟨none, "มะนาว".data, "3".data, none, none⟩).unit = "ชิ้น" ∧
      (extractIntent ⟨none, "มะนาว".data, "3".data, none, none⟩).deliver =
        "ไม่ระบุ" :=
  ⟨by decide,
    (intent_defaults "สั่งมะนาว3" _ (by decide)).1 rfl,
    (intent_defaults "สั่งมะนาว3" _ (by decide)).2.1 rfl,
    (intent_defaults "สั่งมะนาว3" _ (by decide)).2.2.1 rfl⟩

/-- **C6 counterexample.** The input `"สั่งมะนาว0"` parses to a valid
Order-Intent whose quantity is `0`, which is not a positive integer: the
parser does not invalidate a zero quantity. -/
theorem parsed_qty_not_positive_cx :
    (findMatchFrom "สั่งมะนาว0".data).map (fun m => (extractIntent m).qty) =
        some (some 0) ∧ ¬(0 : Int) > 0 := by
  constructor
  · decide
  · decide

/-- **C6 (amended).** Every Order-Intent produced by the parser has a
quantity that is a *non-negative* integer (the decimal value of the matched
digit run, which may be `0`); an input without a digit run never matches,
hence yields no intent. -/
theorem parsed_qty_nonneg (text : String) (m : RawMatch)
    (hm : findMatchFrom text.data = some m) :
    ∃ q : Nat, (extractIntent m).qty = some (q : Int) := by
  obtain ⟨-, -, -, hg3ne, hg3d, -, -, -⟩ := findMatchFrom_eq_some _ _ hm
  refine ⟨digitsVal m.g3, ?_⟩
  show jsParseInt m.g3.asString = _
  have hdata : (m.g3.asString).data = m.g3 := rfl
  rw [jsParseInt_eq_of_digits _ (by rw [hdata]; exact hg3ne)
    (by rw [hdata]; exact hg3d), hdata]

/-- Witness for the amended C6 at the concrete input `"สั่งมะนาว7"`. -/
theorem parsed_qty_nonneg_witness :
    findMatchFrom "สั่งมะนาว7".data =
        some ⟨none, "มะนาว".data, "7".data, none, none⟩ ∧
      ∃ q : Nat,
        (extractIntent ⟨none, "มะนาว".data, "7".data, none, none⟩).qty =
          some (q : Int) :=
  ⟨by decide, parsed_qty_nonneg "สั่งมะนาว7" _ (by decide)⟩

/-- A stock-read failure escapes `parseOrder` as an exception. -/
theorem parseOrder_getStock_fails (env : FaultEnv) (now : String)
    (st : SheetsState) (text : String) (m : RawMatch)
    (hm : findMatchFrom text.data = some m)
    (hg : env.getStockGetFails = true) :
    parseOrder env now st text = .error () := by
  simp [parseOrder, hm, getStock, hg]

/-- **C2.** If the order-record append raises, `addOrder`'s own `catch`
reports the sentinel order number `0` in the reply, and the workflow still
proceeds to write the decremented stock value to the stock record. -/
theorem append_failure_reports_zero (env : FaultEnv) (now : String)
    (st : SheetsState) (text : String) (m : RawMatch) (s q : Int)
    (henvG : env.getStockGetFails = false)
    (henvA : env.addOrderAppendFails = true)
    (henvU1 : env.updateGetFails = false)
    (henvU2 : env.updateUpdateFails = false)
    (hm : findMatchFrom text.data = some m)
    (hq : (extractIntent m).qty = some q)
    (hs : (getStockPure st.stockRows (extractIntent m).item
      (extractIntent m).unit).stock = some s)
    (hge : ¬s < q) :
    ∃ st' : SheetsState,
      parseOrder env now st text =
          .ok (orderReply (extractIntent m)
            (jsMul (getStockPure st.stockRows (extractIntent m).item
              (extractIntent m).unit).price (some q)) 0, st') ∧
        st'.orderRows = st.orderRows ∧
        st'.stockRows = updateStockPure st.stockRows (extractIntent m).item
          (extractIntent m).unit (some (s - q)) := by
  have hlt : jsLt (getStockPure st.stockRows (extractIntent m).item
      (extractIntent m).unit).stock (extractIntent m).qty = false := by
    simp [jsLt, hq, hs, hge]
  refine ⟨⟨updateStockPure st.stockRows (extractIntent m).item
    (extractIntent m).unit (some (s - q)), st.orderRows⟩, ?_, rfl, rfl⟩
  rw [parseOrder_eq_accept env now st text m hm henvG hlt,
    addOrder_fails _ _ _ _ _ _ _ _ _ henvA,
    updateStock_ok _ _ _ _ _ henvU1 henvU2, hq, hs]
  rfl

/-- Witness for C2: an append failure on `"สั่งมะนาว3ลูก"` over 10 in stock
replies with order number `0` yet decrements the stock cell to `7`. -/
theorem append_failure_reports_zero_witness :
    ∃ st' : SheetsState,
      parseOrder ⟨false, false, true, false, false⟩ "T0"
          ⟨[["มะนาว", "ลูก", "", "10", "5"]], [["x"]]⟩ "สั่งมะนาว3ลูก" =
          .ok (orderReply
            (extractIntent ⟨none, "มะนาว".data, "3".data, some "ลูก".data, none⟩)
            (jsMul (getStockPure [["มะนาว", "ลูก", "", "10", "5"]]
              "มะนาว" "ลูก").price (some 3)) 0, st') ∧
        st'.orderRows = [["x"]] ∧
        st'.stockRows = updateStockPure [["มะนาว", "ลูก", "", "10", "5"]]
          "มะนาว" "ลูก" (some (10 - 3)) :=
  append_failure_reports_zero ⟨false, false, true, false, false⟩ "T0"
    ⟨[["มะนาว", "ลูก", "", "10", "5"]], [["x"]]⟩ "สั่งมะนาว3ลูก"
    ⟨none, "มะนาว".data, "3".data, some "ลูก".data, none⟩ 10 3
    rfl rfl rfl rfl (by decide) (by decide) (by decide) (by decide)

/-- **C3 counterexample.** An exception raised during step 5 (the order
append) does *not* reach the event-handling boundary: the webhook reply is
the normal order reply (with sentinel order number 0), not the generic
localized error message. -/
theorem boundary_propagation_cx :
    (handleTextEvent ⟨false, false, true, false, false⟩ "T0"
        ⟨[["มะนาว", "ลูก", "", "10", "5"]], []⟩ "สั่งมะนาว3ลูก").1 ≠
      msgInternalError := by
  decide

/-- **C3 (amended).** Only an exception during step 2 (the stock read)
propagates out of the Order Workflow to the event-handling boundary, which
converts it into the generic localized error reply with the sheet state
untouched; exceptions during step 5 (order append) and step 6 (stock
write) are caught inside the respective ledger functions (the append
returns the sentinel 0, the write failure is silently swallowed), so
whenever the stock read does not fail `parseOrder` returns normally and
nothing reaches the boundary handler. -/
theorem boundary_error_handling :
    (∀ (env : FaultEnv) (now : String) (st : SheetsState) (text : String)
        (m : RawMatch), env.getStockGetFails = true →
        findMatchFrom text.data = some m →
        handleTextEvent env now st text = (msgInternalError, st)) ∧
      (∀ (env : FaultEnv) (now : String) (st : SheetsState) (text : String),
        env.getStockGetFails = false →
        ∃ r, parseOrder env now st text = .ok r) := by
  constructor
  · intro env now st text m hg hm
    rw [handleTextEvent, parseOrder_getStock_fails env now st text m hm hg]
  · intro env now st text hg
    cases hfm : findMatchFrom text.data with
    | none => exact ⟨(msgNotUnderstood, st), by rw [parseOrder, hfm]⟩
    | some m =>
      cases hlt : jsLt (getStockPure st.stockRows (extractIntent m).item
          (extractIntent m).unit).stock (extractIntent m).qty with
      | true => exact ⟨_, parseOrder_eq_reject env now st text m hfm hg hlt⟩
      | false => exact ⟨_, parseOrder_eq_accept env now st text m hfm hg hlt⟩

/-- Witness for the amended C3: a failing stock read yields the generic
error reply; with a healthy stock read no exception escapes `parseOrder`. -/
theorem boundary_error_handling_witness :
    handleTextEvent ⟨true, false, false, false, false⟩ "T0" ⟨[], []⟩
        "สั่งมะนาว3" = (msgInternalError, ⟨[], []⟩) ∧
      ∃ r, parseOrder okEnv "T0" ⟨[], []⟩ "สั่งมะนาว3" = .ok r :=
  ⟨boundary_error_handling.1 ⟨true, false, false, false, false⟩ "T0" ⟨[], []⟩
      "สั่งมะนาว3" ⟨none, "มะนาว".data, "3".data, none, none⟩ rfl (by decide),
    boundary_error_handling.2 okEnv "T0" ⟨[], []⟩ "สั่งมะนาว3" rfl⟩

/-- **C5.** When its two API calls succeed, `addOrder` assigns the new
order number as (count of existing order rows) + 1 and appends exactly one
row. -/
theorem addOrder_count_plus_one (env : FaultEnv) (st : SheetsState)
    (item : String) (qty : Option Int) (unit customer deliver : String)
    (total : Option Int) (now : String)
    (h1 : env.addOrderGetFails = false) (h2 : env.addOrderAppendFails = false) :
    (addOrder env st item qty unit customer deliver total now).1 =
        st.orderRows.length + 1 ∧
      ((addOrder env st item qty unit customer deliver total now).2).orderRows.length =
        st.orderRows.length + 1 := by
  rw [addOrder_ok _ _ _ _ _ _ _ _ _ h1 h2]
  simp

/-- Witness for C5: on an orders table with 3 existing rows the assigned
number is 4 and the table ends up with 4 rows. -/
theorem addOrder_count_plus_one_witness :
    (addOrder okEnv ⟨[], [["a"], ["b"], ["c"]]⟩ "มะนาว" (some 2) "ลูก"
        "ลูกค้าไม่ระบุ" "ไม่ระบุ" (some 10) "T0").1 = 4 ∧
      ((addOrder okEnv ⟨[], [["a"], ["b"], ["c"]]⟩ "มะนาว" (some 2) "ลูก"
        "ลูกค้าไม่ระบุ" "ไม่ระบุ" (some 10) "T0").2).orderRows.length = 4 :=
  addOrder_count_plus_one okEnv ⟨[], [["a"], ["b"], ["c"]]⟩ "มะนาว" (some 2)
    "ลูก" "ลูกค้าไม่ระบุ" "ไม่ระบุ" (some 10) "T0" rfl rfl

/-- **C7.** When the recorded stock equals the requested quantity the order
is accepted: one order row is appended, the reply carries `total =
price × quantity` and the fresh order number, and the recorded stock
becomes `0`. -/
theorem equal_stock_accepted (env : FaultEnv) (now : String)
    (st : SheetsState) (text : String) (m : RawMatch) (q p : Int)
    (henvG : env.getStockGetFails = false)
    (henvAG : env.addOrderGetFails = false)
    (henvA : env.addOrderAppendFails = false)
    (henvU1 : env.updateGetFails = false)
    (henvU2 : env.updateUpdateFails = false)
    (hm : findMatchFrom text.data = some m)
    (hq : (extractIntent m).qty = some q)
    (hsd : getStockPure st.stockRows (extractIntent m).item
      (extractIntent m).unit = ⟨some q, some p⟩) :
    ∃ st' : SheetsState,
      parseOrder env now st text =
          .ok (orderReply (extractIntent m) (some (p * q))
            (st.orderRows.length + 1), st') ∧
        st'.orderRows.length = st.orderRows.length + 1 ∧
        (getStockPure st'.stockRows (extractIntent m).item
          (extractIntent m).unit).stock = some 0 := by
  have hlt : jsLt (getStockPure st.stockRows (extractIntent m).item
      (extractIntent m).unit).stock (extractIntent m).qty = false := by
    simp [jsLt, hq, hsd]
  refine ⟨⟨updateStockPure st.stockRows (extractIntent m).item
      (extractIntent m).unit (some (q - q)),
    st.orderRows ++ [newOrderRow (st.orderRows.length + 1) now
      (extractIntent m).customer (extractIntent m).item (some q)
      (extractIntent m).unit (extractIntent m).deliver (some (p * q))]⟩,
    ?_, by simp, ?_⟩
  · rw [parseOrder_eq_accept env now st text m hm henvG hlt,
      addOrder_ok _ _ _ _ _ _ _ _ _ henvAG henvA,
      updateStock_ok _ _ _ _ _ henvU1 henvU2, hq, hsd]
    rfl
  · show (getStockPure (updateStockPure st.stockRows _ _ (some (q - q))) _ _).stock
      = some 0
    rw [sub_self]
    cases hex : rowExistsB st.stockRows (extractIntent m).item
        (extractIntent m).unit with
    | true => exact getStockPure_updateStockPure _ _ 0 _ hex
    | false =>
      rw [updateStockPure_no_match _ _ _ _ hex, getStockPure_no_match _ _ _ hex]

/-- Witness for C7: stock 5, quantity 5 — accepted, stock becomes 0. -/
theorem equal_stock_accepted_witness :
    ∃ st' : SheetsState,
      parseOrder okEnv "T0" ⟨[["มะนาว", "ลูก", "", "5", "7"]], [["x"]]⟩
          "สั่งมะนาว5ลูก" =
          .ok (orderReply
            (extractIntent ⟨none, "มะนาว".data, "5".data, some "ลูก".data, none⟩)
            (some (7 * 5)) 2, st') ∧
        st'.orderRows.length = 2 ∧
        (getStockPure st'.stockRows "มะนาว" "ลูก").stock = some 0 :=
  equal_stock_accepted okEnv "T0" ⟨[["มะนาว", "ลูก", "", "5", "7"]], [["x"]]⟩
    "สั่งมะนาว5ลูก" ⟨none, "มะนาว".data, "5".data, some "ลูก".data, none⟩ 5 7
    rfl rfl rfl rfl rfl (by decide) (by decide) (by decide)

/-- **C8.** Writing stock `N` for an (item, unit) pair that has a matching
row and immediately reading it back (no interleaved writer) returns
`stock = N`: both operations select the same first exactly-matching row. -/
theorem read_after_write (env1 env2 : FaultEnv) (st : SheetsState)
    (item unit : String) (N : Int)
    (h1 : env1.updateGetFails = false) (h2 : env1.updateUpdateFails = false)
    (h3 : env2.getStockGetFails = false)
    (hrow : rowExistsB st.stockRows item unit = true) :
    ∃ sd : StockData,
      getStock env2 (updateStock env1 st item unit (some N)) item unit =
          .ok sd ∧ sd.stock = some N := by
  refine ⟨getStockPure (updateStockPure st.stockRows item unit (some N))
    item unit, ?_, getStockPure_updateStockPure item unit N _ hrow⟩
  rw [updateStock_ok _ _ _ _ _ h1 h2]
  simp [getStock, h3]

/-- Witness for C8: write 42 over the มะนาว/ลูก row, read back 42. -/
theorem read_after_write_witness :
    ∃ sd : StockData,
      getStock okEnv (updateStock okEnv
          ⟨[["น้ำแข็ง", "ถุง", "", "3", "9"], ["มะนาว", "ลูก", "", "10", "5"]], []⟩
          "มะนาว" "ลูก" (some 42)) "มะนาว" "ลูก" = .ok sd ∧
        sd.stock = some 42 :=
  read_after_write okEnv okEnv
    ⟨[["น้ำแข็ง", "ถุง", "", "3", "9"], ["มะนาว", "ลูก", "", "10", "5"]], []⟩
    "มะนาว" "ลูก" 42 rfl rfl rfl (by decide)

/-- **C10.** An input whose quantity digit run is `"0"` is accepted against
any ledger state with non-negative recorded stock (and a well-formed
price): the sufficiency check passes, an order row with quantity 0 and
total 0 is appended, and the stock cell is rewritten with the unchanged
value `stock - 0`. -/
theorem qty_zero_accepted (env : FaultEnv) (now : String) (st : SheetsState)
    (text : String) (m : RawMatch) (s p : Int)
    (henvG : env.getStockGetFails = false)
    (henvAG : env.addOrderGetFails = false)
    (henvA : env.addOrderAppendFails = false)
    (henvU1 : env.updateGetFails = false)
    (henvU2 : env.updateUpdateFails = false)
    (hm : findMatchFrom text.data = some m)
    (hg3 : m.g3 = ['0'])
    (hsd : getStockPure st.stockRows (extractIntent m).item
      (extractIntent m).unit = ⟨some s, some p⟩)
    (hnn : 0 ≤ s) :
    ∃ st' : SheetsState,
      parseOrder env now st text =
          .ok (orderReply (extractIntent m) (some 0)
            (st.orderRows.length + 1), st') ∧
        st'.orderRows = st.orderRows ++
          [newOrderRow (st.orderRows.length + 1) now
            (extractIntent m).customer (extractIntent m).item (some 0)
            (extractIntent m).unit (extractIntent m).deliver (some 0)] ∧
        (getStockPure st'.stockRows (extractIntent m).item
          (extractIntent m).unit).stock = some s := by
  have hq : (extractIntent m).qty = some 0 := by
    show jsParseInt m.g3.asString = some 0
    rw [hg3]
    decide
  have hlt : jsLt (getStockPure st.stockRows (extractIntent m).item
      (extractIntent m).unit).stock (extractIntent m).qty = false := by
    simp [jsLt, hq, hsd]
    omega
  have htot : jsMul (getStockPure st.stockRows (extractIntent m).item
      (extractIntent m).unit).price (extractIntent m).qty = some 0 := by
    rw [hq, hsd]
    show some (p * 0) = some 0
    rw [mul_zero]
  refine ⟨⟨updateStockPure st.stockRows (extractIntent m).item
      (extractIntent m).unit (some (s - 0)),
    st.orderRows ++ [newOrderRow (st.orderRows.length + 1) now
      (extractIntent m).customer (extractIntent m).item (some 0)
      (extractIntent m).unit (extractIntent m).deliver (some 0)]⟩,
    ?_, rfl, ?_⟩
  · rw [parseOrder_eq_accept env now st text m hm henvG hlt,
      addOrder_ok _ _ _ _ _ _ _ _ _ henvAG henvA,
      updateStock_ok _ _ _ _ _ henvU1 henvU2, htot, hq, hsd]
    rfl
  · show (getStockPure (updateStockPure st.stockRows _ _ (some (s - 0))) _ _).stock
      = some s
    rw [sub_zero]
    cases hex : rowExistsB st.stockRows (extractIntent m).item
        (extractIntent m).unit with
    | true => exact getStockPure_updateStockPure _ _ s _ hex
    | false =>
      rw [updateStockPure_no_match _ _ _ _ hex, getStockPure_no_match _ _ _ hex]
      rw [getStockPure_no_match _ _ _ hex] at hsd
      have : some (0 : Int) = some s := congrArg StockData.stock hsd
      exact this

/-- Witness for C10: `"สั่งมะนาว0"` against 10 in stock appends a
quantity-0, total-0 order and leaves the recorded stock at 10. -/
theorem qty_zero_accepted_witness :
    ∃ st' : SheetsState,
      parseOrder okEnv "T0" ⟨[["มะนาว", "ลูก", "", "10", "5"]], []⟩
          "สั่งมะนาว0ลูก" =
          .ok (orderReply
            (extractIntent ⟨none, "มะนาว".data, "0".data, some "ลูก".data, none⟩)
            (some 0) 1, st') ∧
        st'.orderRows = [] ++
          [newOrderRow 1 "T0" "ลูกค้าไม่ระบุ" "มะนาว" (some 0) "ลูก" "ไม่ระบุ"
            (some 0)] ∧
        (getStockPure st'.stockRows "มะนาว" "ลูก").stock = some 10 :=
  qty_zero_accepted okEnv "T0" ⟨[["มะนาว", "ลูก", "", "10", "5"]], []⟩
    "สั่งมะนาว0ลูก" ⟨none, "มะนาว".data, "0".data, some "ลูก".data, none⟩ 10 5
    rfl rfl rfl rfl rfl (by decide) (by decide) (by decide) (by decide)

end TonpaiICE
